import Mathlib

/-!
# pili-server-demo: token authorizer, HTTP handlers and expiry sweeper

A shallow embedding of `main.go` and `src/util/tools.go`.

* Go strings are byte sequences (`GoString`).
* `encoding/base64` (`StdEncoding`, padded, non-strict, CR/LF ignored) and
  `strings.Split` are embedded from the Go standard library.
* Package `cli` (account store and room-hosting client) is not part of the
  sources at hand; functions of the program that call it take it as a
  parameter, and a model of it after the spec is given where a statement
  needs the store or the rooms themselves.
-/

namespace PiliServer

set_option autoImplicit false

/-! ## Strings and errors -/

/-- A byte. -/
abbrev Byte := Fin 256

/-- A Go `string` / `[]byte`: a sequence of bytes. -/
abbrev GoString := List Byte

/-- The bytes of an ASCII string literal. -/
def str (s : String) : GoString := s.toList.map fun c => Fin.ofNat c.toNat

/-- An error value produced inside package `cli`, identified by its text. -/
structure CliError where
  text : GoString
deriving DecidableEq, Repr

/-- Go `error` values that occur in the program, by the place that makes them. -/
inductive GoError where
  /-- Embeds `errors.New(text)` in `main.go` or `tools.go`. -/
  | errorsNew (text : GoString)
  /-- Embeds `base64.CorruptInputError(offset)`. -/
  | corruptInputError (offset : Nat)
  /-- An error returned by a function of package `cli`. -/
  | cli (e : CliError)
deriving DecidableEq, Repr

/-- The rejection of an empty token: `errors.New("authorization is null")`. -/
def isErrorMissingCredential : GoError → Bool
  | .errorsNew t => t == str "authorization is null"
  | _ => false

/-- The rejection of a token that does not decode or does not split in two:
the base64 error or `errors.New("the authorization error, " + token)`. -/
def isErrorMalformedCredential (token : GoString) : GoError → Bool
  | .corruptInputError _ => true
  | .errorsNew t => t == str "the authorization error, " ++ token
  | .cli _ => false

/-- The rejection coming from the store lookup `cli.QueryUser`. -/
def isErrorInvalidCredential : GoError → Bool
  | .cli _ => true
  | _ => false

/-! ## `encoding/base64`, `StdEncoding` -/

/-- The standard alphabet `encodeStd`. -/
def encodeStd : GoString :=
  str "ABCDEFGHIJKLMNOPQRSTUVWXYZabcdefghijklmnopqrstuvwxyz0123456789+/"

/-- Embeds `StdPadding`, the character `=`. -/
def padChar : Byte := 61

/-- Embeds `enc.encode[v & 0x3F]`. -/
def encode6 (v : Nat) : Byte := encodeStd.getD (v % 64) 0

/-- Embeds `enc.decodeMap[c]`: the index of `c` in the alphabet, `0xFF` for any other byte. -/
def decodeMap (c : Byte) : Nat :=
  if c ∈ encodeStd then encodeStd.indexOf c else 0xFF

/-- Embeds `StdEncoding.EncodeToString`: three bytes become four characters, a
remainder of one or two bytes is padded with `=`. -/
def EncodeToString : List Byte → GoString
  | a :: b :: c :: rest =>
    let val := a.val * 65536 + b.val * 256 + c.val
    encode6 (val / 262144) :: encode6 (val / 4096) :: encode6 (val / 64) :: encode6 val
      :: EncodeToString rest
  | [a, b] =>
    let val := a.val * 65536 + b.val * 256
    [encode6 (val / 262144), encode6 (val / 4096), encode6 (val / 64), padChar]
  | [a] =>
    let val := a.val * 65536
    [encode6 (val / 262144), encode6 (val / 4096), padChar, padChar]
  | [] => []

/-- The end of `decodeQuantum`: the sextets in `dbuf` (missing ones are zero)
are packed into 24 bits and the first `dlen - 1` bytes are written. The
sextets are below 64, so the bitwise or of the shifted values is their sum. -/
def assemble (dbuf : List Nat) (dlen : Nat) : List Byte :=
  let val := dbuf.getD 0 0 * 262144 + dbuf.getD 1 0 * 4096 + dbuf.getD 2 0 * 64 + dbuf.getD 3 0
  ([val / 65536, val / 256, val].map fun x => (Fin.ofNat (x % 256) : Byte)).take (dlen - 1)

/-- A carriage return or line feed, which the decoder skips. -/
def isNewline (c : Byte) : Bool := c == 10 || c == 13

/-- The loop `for si < len(src) && (src[si] == '\n' || src[si] == '\r') { si++ }`. -/
def skipNewlines : Nat → List Byte → Nat × List Byte
  | si, c :: rest => if isNewline c then skipNewlines (si + 1) rest else (si, c :: rest)
  | si, [] => (si, [])

/-- The loops of `Encoding.Decode` and `decodeQuantum` as one recursion over
the unread input `src[si:]`. `out` is `dst[:n]`, `dbuf` holds the `j` sextets
read so far in the current quantum, `srcLen` is `len(src)`. The result is
`(dst[:n], err)`. -/
def decode (srcLen : Nat) :
    List Byte → List Nat → Nat → List Byte → List Byte × Option GoError
  | out, dbuf, si, [] =>
    if dbuf.length = 0 then (out, none)
    else (out, some (.corruptInputError (si - dbuf.length)))
  | out, dbuf, si, c :: rest =>
    if decodeMap c ≠ 0xFF then
      if dbuf.length = 3 then
        decode srcLen (out ++ assemble (dbuf ++ [decodeMap c]) 4) [] (si + 1) rest
      else decode srcLen out (dbuf ++ [decodeMap c]) (si + 1) rest
    else if isNewline c then decode srcLen out dbuf (si + 1) rest
    else if c ≠ padChar then (out, some (.corruptInputError si))
    else
      match dbuf.length with
      | 0 => (out, some (.corruptInputError si))
      | 1 => (out, some (.corruptInputError si))
      | 2 =>
        match skipNewlines (si + 1) rest with
        | (_, []) => (out, some (.corruptInputError srcLen))
        | (si2, c2 :: rest2) =>
          if c2 ≠ padChar then (out, some (.corruptInputError (si2 - 1)))
          else
            match skipNewlines (si2 + 1) rest2 with
            | (_, []) => (out ++ assemble dbuf 2, none)
            | (si3, _ :: _) => (out ++ assemble dbuf 2, some (.corruptInputError si3))
      | _ =>
        match skipNewlines (si + 1) rest with
        | (_, []) => (out ++ assemble dbuf 3, none)
        | (si3, _ :: _) => (out ++ assemble dbuf 3, some (.corruptInputError si3))

/-- Embeds `StdEncoding.DecodeString`. -/
def DecodeString (s : GoString) : List Byte × Option GoError :=
  decode s.length [] [] 0 s

/-! ## `strings.Split` -/

/-- The separator `":"`. -/
def colon : Byte := 58

/-- Embeds `strings.Split(s, sep)` for a one-byte separator: the pieces of `s`
between the occurrences of `sep`, `Count(s, sep) + 1` of them. -/
def Split (sep : Byte) : GoString → List GoString
  | [] => [[]]
  | c :: rest =>
    if c = sep then [] :: Split sep rest
    else
      match Split sep rest with
      | piece :: pieces => (c :: piece) :: pieces
      | [] => [[c]]

/-! ## `util.UnderOfAuthority` and `authorization` -/

/-- What a call of `authorization` does to the outside, in order. -/
inductive Event where
  /-- Embeds `log.Infof("authorization:%s\n", token)`. -/
  | logInfof (token : GoString)
  /-- Embeds `base64.StdEncoding.DecodeString(token)`. -/
  | decodeString (token : GoString)
  /-- Embeds `cli.QueryUser(name, password)`. -/
  | queryUser (name password : GoString)
deriving DecidableEq, Repr

/-- The pair `(string, error)` a call returns, with the events of the call. -/
structure Ret where
  name : GoString
  err : Option GoError
  events : List Event
deriving DecidableEq, Repr

/-- Embeds `util.UnderOfAuthority` of `tools.go`. The store lookup `cli.QueryUser`
is the parameter `QueryUser` (`none` is a nil error). The result is `none`
when the Go code panics on an index out of range. -/
def UnderOfAuthority (QueryUser : GoString → GoString → Option CliError)
    (token : GoString) : Option Ret :=
  let events := [Event.logInfof token, Event.decodeString token]
  match DecodeString token with
  | (_, some err) => some ⟨[], some err, events⟩
  | (decodeBytes, none) =>
    let res := Split colon decodeBytes
    if res.length ≠ 2 then
      some ⟨[], some (.errorsNew (str "the authorization error, " ++ token)), events⟩
    else
      match res[0]?, res[1]? with
      | some res0, some res1 =>
        match QueryUser res0 res1 with
        | some existErr => some ⟨[], some (.cli existErr), events ++ [.queryUser res0 res1]⟩
        | none => some ⟨res0, none, events ++ [.queryUser res0 res1]⟩
      | _, _ => none

/-- Embeds `authorization` of `main.go`. -/
def authorization (QueryUser : GoString → GoString → Option CliError)
    (token : GoString) : Option Ret :=
  if token = [] then some ⟨[], some (.errorsNew (str "authorization is null")), []⟩
  else UnderOfAuthority QueryUser token

/-! ## The account store -/

/-- Embeds `cli.Users`, the account record, with the fields `main.go` uses.
`Deadline` is the creation time in Unix seconds. -/
structure Users where
  Name : GoString
  Password : GoString
  Room : GoString
  Deadline : Int
deriving DecidableEq, Repr

/-- Modelled from the spec: the account store's `findByName(name) ->
Account|NotFound` (package `cli` is missing from the sources). The store is
the list of its records; `Name` is the primary key. -/
def cli.findByName (db : List Users) (name : GoString) : Option Users :=
  db.find? fun u => u.Name == name

/-- Modelled from the spec: the error value `ErrorInvalidCredential` that the
missing `cli.QueryUser` returns. -/
def cli.ErrorInvalidCredential : CliError := ⟨str "name or password is wrong"⟩

/-- Modelled from the spec: `cli.QueryUser(name, password)` (package `cli` is
missing from the sources): "Look up the Account by identity and compare
stored secret; mismatch or absent account yields `ErrorInvalidCredential`." -/
def cli.QueryUser (db : List Users) (name password : GoString) : Option CliError :=
  match cli.findByName db name with
  | none => some cli.ErrorInvalidCredential
  | some u => if u.Password = password then none else some cli.ErrorInvalidCredential

/-! ## Package `time` and the expiry sweeper `startTimer` -/

/-- An `int64` result: the value wrapped to 64 bits, two's complement. -/
def int64 (x : Int) : Int := (x + 2 ^ 63) % 2 ^ 64 - 2 ^ 63

/-! A `time.Duration` is a count of nanoseconds, an `Int`. A `time.Time` of
the process's location is an `Int` as well: the wall-clock nanoseconds since
00:00 of calendar day 0. Calendar days are taken to last 24 hours. -/

/-- Embeds `time.Second`. -/
def time.Second : Int := 1000000000

/-- Embeds `time.Minute`. -/
def time.Minute : Int := 60 * time.Second

/-- Embeds `time.Hour`. -/
def time.Hour : Int := 60 * time.Minute

/-- The nanoseconds of a calendar day. -/
def time.nsPerDay : Int := 24 * time.Hour

/-- Embeds `t.Add(d)`. -/
def time.Add (t : Int) (d : Int) : Int := t + d

/-- The calendar day of `t`, which `(t.Year(), t.Month(), t.Day())` name. -/
def time.YearMonthDay (t : Int) : Int := t / time.nsPerDay

/-- The nanoseconds of `t` into its calendar day. -/
def time.nsOfDay (t : Int) : Int := t % time.nsPerDay

/-- Embeds `time.Date(year, month, day, hour, min, sec, nsec, loc)` for the calendar
day `ymd` and a time of day within range. -/
def time.Date (ymd : Int) (hour min sec nsec : Int) : Int :=
  ymd * time.nsPerDay + hour * time.Hour + min * time.Minute + sec * time.Second + nsec

/-- Embeds `t.Sub(u)`: the difference, saturated to the `int64` range of `Duration`. -/
def time.Sub (t u : Int) : Int :=
  if t - u > 2 ^ 63 - 1 then 2 ^ 63 - 1
  else if t - u < -(2 : Int) ^ 63 then -(2 : Int) ^ 63
  else t - u

/-- Embeds `ttl := time.Now().Unix() - (30 * 24 * 60 * 60)`, the argument of
`cli.DeleteUserByTimer`; `unix` is `time.Now().Unix()`. -/
def startTimer.ttl (unix : Int) : Int := int64 (unix - 30 * 24 * 60 * 60)

/-- The wake-up instant `next` of a cycle:
`next := now.Add(time.Hour * 24)`, then
`next = time.Date(next.Year(), next.Month(), next.Day(), 23, 59, 59, 59, next.Location())`. -/
def startTimer.next (now : Int) : Int :=
  let next := time.Add now (time.Hour * 24)
  time.Date (time.YearMonthDay next) 23 59 59 59

/-- One turn of the loop of `startTimer`. -/
structure Cycle where
  /-- The cutoff handed to `cli.DeleteUserByTimer(mac, ttl)`. -/
  ttl : Int
  /-- The wake-up instant. -/
  next : Int
  /-- The duration `next.Sub(now)` of the timer the loop then waits for. -/
  timer : Int
deriving DecidableEq, Repr

/-- The body of the loop of `startTimer`: `unix` is the first clock reading
`time.Now().Unix()`, `now` the second reading `time.Now()`, taken after the
bulk delete. -/
def startTimer.cycle (unix : Int) (now : Int) : Cycle :=
  let ttl := startTimer.ttl unix
  let next := startTimer.next now
  ⟨ttl, next, time.Sub next now⟩

/-- Modelled from the spec: `cli.DeleteUserByTimer` (package `cli` is missing
from the sources), on the account store: "a bulk-delete operation ... for
every account whose creation timestamp is at or before the cutoff". The
result is the deletion set and the accounts that stay. -/
def cli.DeleteUserByTimer (db : List Users) (ttl : Int) : List Users × List Users :=
  (db.filter fun u => u.Deadline ≤ ttl, db.filter fun u => ¬ u.Deadline ≤ ttl)

/-! ## The HTTP handlers of `main` -/

/-- Embeds `err.Error()`. -/
def GoError.Error : GoError → GoString
  | .errorsNew text => text
  | .corruptInputError offset => str ("illegal base64 data at input byte " ++ toString offset)
  | .cli e => e.text

/-- Embeds `model.ReqUpdateUser`, with the field `main.go` uses. -/
structure ReqUpdateUser where
  Password : GoString
deriving DecidableEq, Repr

/-- Embeds `model.ReqNewRoomBody`, with the fields `main.go` uses. -/
structure ReqNewRoomBody where
  Room : GoString
  User : GoString
  Max : Int
deriving DecidableEq, Repr

/-- Embeds `model.ReqNewRoomTokenBody`, with the fields `main.go` uses. -/
structure ReqNewRoomTokenBody where
  Room : GoString
  User : GoString
  Version : GoString
deriving DecidableEq, Repr

/-- The value `ret` of `cli.RoomCreate`, with the field `main.go` uses. -/
structure RoomRet where
  Room : GoString
deriving DecidableEq, Repr

/-- The value `r` of `cli.RoomStatus`. -/
structure RoomStatusRet where
  Room : GoString
  OwnerUserID : GoString
  UserMax : Int
  Status : Int
deriving DecidableEq, Repr

/-- What a handler reads from its `*gin.Context`: the `Authorization` header
(empty when absent), the path parameter of the route, and the outcome of
`c.BindJSON(&reqInfo)` (`none` when it returns an error). -/
structure Context (β : Type) where
  Authorization : GoString
  Param : GoString
  BindJSON : Option β

/-- A value in a `gin.H`. -/
inductive Value where
  | text (s : GoString)
  | number (n : Int)
deriving DecidableEq, Repr

/-- The body of a response. -/
inductive Body where
  /-- Embeds `c.JSON(code, gin.H{...})`. -/
  | H (fields : List (String × Value))
  /-- Embeds `c.JSON(code, retErr)`. -/
  | error (e : CliError)
  /-- Embeds `c.String(code, s)`. -/
  | string (s : GoString)
deriving DecidableEq, Repr

/-- The response a handler writes. -/
structure Response where
  code : Nat
  body : Body
deriving DecidableEq, Repr

/-- Embeds `c.JSON(code, gin.H{"code": code, "message": text})`. -/
def message (code : Nat) (text : GoString) : Response :=
  ⟨code, .H [("code", .number code), ("message", .text text)]⟩

/-- The calls a handler makes, in order. -/
inductive Call where
  | authorization (token : GoString)
  | RoomCreate (room user : GoString) (max : Int)
  | InsertUser (u : Users)
  | RoomDelete (room : GoString)
  | UpdateUser (name password : GoString)
  | DeleteUser (name : GoString)
  | RoomStatus (room : GoString)
  | CreateToken (room user version : GoString)
  | hubCreate (id : GoString)
deriving DecidableEq, Repr

/-- The calls that act on the account store or the room and stream
collaborator for the request; `authorization` and `cli.RoomStatus` only read. -/
def Call.acts : Call → Bool
  | .authorization _ => false
  | .RoomStatus _ => false
  | _ => true

/-- Package `cli`, the stream hub and the clock, as the handlers use them,
over a state `W` of the account store and the room-hosting service. A nil
error is `none`. The argument `mac` is fixed at start-up and left out. -/
structure Collaborators (W : Type) where
  QueryUser : W → GoString → GoString → Option CliError
  RoomCreate : W → GoString → GoString → Int → Except CliError RoomRet × W
  InsertUser : W → Users → Option CliError × W
  RoomDelete : W → GoString → Option CliError × W
  UpdateUser : W → GoString → GoString → Option CliError × W
  DeleteUser : W → GoString → Option CliError × W
  RoomStatus : W → GoString → Except CliError RoomStatusRet
  CreateToken : GoString → GoString → GoString → GoString
  hubCreate : W → GoString → W
  RTMPPublishURL : GoString → GoString
  Now : W → Int

/-- What a handler has done when it returns. -/
structure Handled (W : Type) where
  response : Response
  world : W
  calls : List Call
deriving DecidableEq

/-- The handler of `POST /pili/v1/user/new`. -/
def userNew {W : Type} (cli : Collaborators W) (c : Context Users) (w : W) : Handled W :=
  match c.BindJSON with
  | none => ⟨message 400 (str "the request\x27s paramter error"), w, []⟩
  | some reqInfo =>
    if reqInfo.Name = [] ∨ reqInfo.Password = [] then
      ⟨message 400 (str "name or password is null"), w, []⟩
    else if reqInfo.Room = [] then ⟨message 400 (str "room is null"), w, []⟩
    else
      let reqInfo : Users := ⟨reqInfo.Name, reqInfo.Password, reqInfo.Room, cli.Now w⟩
      match cli.RoomCreate w reqInfo.Room reqInfo.Name 99 with
      | (.error nrErr, w1) =>
        ⟨message 611 (nrErr.text ++ str "\n"), w1, [.RoomCreate reqInfo.Room reqInfo.Name 99]⟩
      | (.ok _, w1) =>
        match cli.InsertUser w1 reqInfo with
        | (some iErr, w2) =>
          ⟨message 400 (iErr.text ++ str "\n"), (cli.RoomDelete w2 reqInfo.Room).2,
            [.RoomCreate reqInfo.Room reqInfo.Name 99, .InsertUser reqInfo,
             .RoomDelete reqInfo.Room]⟩
        | (none, w2) =>
          ⟨⟨200, .H [("code", .number 200), ("name", .text reqInfo.Name),
              ("room", .text reqInfo.Room)]⟩, w2,
            [.RoomCreate reqInfo.Room reqInfo.Name 99, .InsertUser reqInfo]⟩

/-- The handler of `POST /pili/v1/user/update/:name`. The result is `none` when the handler
panics. -/
def userUpdate {W : Type} (cli : Collaborators W) (c : Context ReqUpdateUser) (w : W) :
    Option (Handled W) :=
  let token := c.Authorization
  match authorization (cli.QueryUser w) token with
  | none => none
  | some ⟨_, some authErr, _⟩ => some ⟨message 403 authErr.Error, w, [.authorization token]⟩
  | some ⟨author, none, _⟩ =>
    let name := c.Param
    if name = [] then some ⟨message 400 (str "name is null"), w, [.authorization token]⟩
    else if name ≠ author then
      some ⟨message 403 (str "name and authentication are inconsistent"), w,
        [.authorization token]⟩
    else
      match c.BindJSON with
      | none => some ⟨message 400 (str "the body error"), w, [.authorization token]⟩
      | some reqInfo =>
        match cli.UpdateUser w name reqInfo.Password with
        | (some _, w1) =>
          some ⟨message 400 (str "update user\x27s info failed"), w1,
            [.authorization token, .UpdateUser name reqInfo.Password]⟩
        | (none, w1) =>
          some ⟨message 200 (str "ok"), w1,
            [.authorization token, .UpdateUser name reqInfo.Password]⟩

/-- The handler of `POST /pili/v1/user/delete/:name`. -/
def userDelete {W : Type} (cli : Collaborators W) (c : Context Unit) (w : W) :
    Option (Handled W) :=
  let token := c.Authorization
  match authorization (cli.QueryUser w) token with
  | none => none
  | some ⟨_, some _, _⟩ => some ⟨message 403 (str "no auhtorized"), w, [.authorization token]⟩
  | some ⟨author, none, _⟩ =>
    let name := c.Param
    if name = [] then some ⟨message 400 (str "name is null"), w, [.authorization token]⟩
    else if name ≠ author then
      some ⟨message 403 (str "name and authentication are inconsistent"), w,
        [.authorization token]⟩
    else
      match cli.DeleteUser w name with
      | (some retErr, w1) =>
        some ⟨⟨400, .error retErr⟩, w1, [.authorization token, .DeleteUser name]⟩
      | (none, w1) =>
        some ⟨message 200 (str "ok"), w1, [.authorization token, .DeleteUser name]⟩

/-- The handler of `POST /pili/v1/room/new`. -/
def roomNew {W : Type} (cli : Collaborators W) (c : Context ReqNewRoomBody) (w : W) :
    Option (Handled W) :=
  let token := c.Authorization
  match authorization (cli.QueryUser w) token with
  | none => none
  | some ⟨_, some authErr, _⟩ => some ⟨message 403 authErr.Error, w, [.authorization token]⟩
  | some ⟨_, none, _⟩ =>
    match c.BindJSON with
    | none =>
      some ⟨message 400 (str "the request\x27s paramter error"), w, [.authorization token]⟩
    | some reqInfo =>
      if reqInfo.Room = [] ∨ reqInfo.User = [] then
        some ⟨message 400 (str "room or user is null"), w, [.authorization token]⟩
      else
        let max := if reqInfo.Max ≤ 0 then 99 else reqInfo.Max
        match cli.RoomCreate w reqInfo.Room reqInfo.User max with
        | (.error retErr, w1) =>
          some ⟨⟨400, .error retErr⟩, w1,
            [.authorization token, .RoomCreate reqInfo.Room reqInfo.User max]⟩
        | (.ok ret, w1) =>
          some ⟨⟨200, .H [("code", .number 200), ("room", .text ret.Room)]⟩, w1,
            [.authorization token, .RoomCreate reqInfo.Room reqInfo.User max]⟩

/-- The handler of `POST /pili/v1/room/delete/:id`. -/
def roomDelete {W : Type} (cli : Collaborators W) (c : Context Unit) (w : W) :
    Option (Handled W) :=
  let token := c.Authorization
  match authorization (cli.QueryUser w) token with
  | none => none
  | some ⟨_, some authErr, _⟩ => some ⟨message 403 authErr.Error, w, [.authorization token]⟩
  | some ⟨author, none, _⟩ =>
    let roomid := c.Param
    match cli.RoomStatus w roomid with
    | .error _ =>
      some ⟨message 400 (str "delete user failed"), w,
        [.authorization token, .RoomStatus roomid]⟩
    | .ok r =>
      if author ≠ r.OwnerUserID then
        some ⟨message 403 (str "no authorized"), w, [.authorization token, .RoomStatus roomid]⟩
      else
        match cli.RoomDelete w roomid with
        | (some _, w1) =>
          some ⟨message 400 (str "delete room failed"), w1,
            [.authorization token, .RoomStatus roomid, .RoomDelete roomid]⟩
        | (none, w1) =>
          some ⟨message 200 (str "ok"), w1,
            [.authorization token, .RoomStatus roomid, .RoomDelete roomid]⟩

/-- The handler of `POST /pili/v1/room/token`. -/
def roomToken {W : Type} (cli : Collaborators W) (c : Context ReqNewRoomTokenBody) (w : W) :
    Option (Handled W) :=
  let token := c.Authorization
  match authorization (cli.QueryUser w) token with
  | none => none
  | some ⟨_, some authErr, _⟩ => some ⟨message 403 authErr.Error, w, [.authorization token]⟩
  | some ⟨_, none, _⟩ =>
    match c.BindJSON with
    | none =>
      some ⟨message 400 (str "the request\x27s paramter error"), w, [.authorization token]⟩
    | some reqInfo =>
      let roomtoken := cli.CreateToken reqInfo.Room reqInfo.User reqInfo.Version
      some ⟨⟨200, .string roomtoken⟩, w,
        [.authorization token, .CreateToken reqInfo.Room reqInfo.User reqInfo.Version]⟩

/-- The handler of `POST /pili/v1/stream/:id`. -/
def streamCreate {W : Type} (cli : Collaborators W) (c : Context Unit) (w : W) :
    Option (Handled W) :=
  let token := c.Authorization
  match authorization (cli.QueryUser w) token with
  | none => none
  | some ⟨_, some _, _⟩ => some ⟨message 403 (str "no authorized"), w, [.authorization token]⟩
  | some ⟨_, none, _⟩ =>
    let id := c.Param
    let w1 := cli.hubCreate w id
    let url := cli.RTMPPublishURL id
    some ⟨⟨200, .H [("code", .number 200), ("url", .text url)]⟩, w1,
      [.authorization token, .hubCreate id]⟩

/-! ## The account store and the room-hosting service, from the spec -/

/-- A room at the room-hosting service. -/
structure Room where
  Name : GoString
  Owner : GoString
  UserMax : Int
deriving DecidableEq, Repr

/-- Modelled from the spec: the state behind package `cli` (missing from the
sources): the account records, the rooms and streams of the hosting service,
the clock, and `faults`, the upstream failures to come: each call that
writes takes the head of `faults` and fails with it when it is `some e`. -/
structure World where
  users : List Users
  rooms : List Room
  streams : List GoString
  clock : Int
  faults : List (Option CliError)
deriving DecidableEq, Repr

/-- The upstream failure, if any, of the coming call, and the state with it
taken. -/
def World.fault (w : World) : Option CliError × World :=
  match w.faults with
  | [] => (none, w)
  | f :: fs => (f, { w with faults := fs })

/-- Modelled from the spec: the error value `ErrorConflict` of the missing
package `cli`: the room or the account already exists. -/
def cli.ErrorConflict : CliError := ⟨str "already exists"⟩

/-- Modelled from the spec: the error value of a lookup of the missing package
`cli` that finds nothing. -/
def cli.ErrorNotFound : CliError := ⟨str "not found"⟩

/-- Modelled from the spec: `cli.RoomCreate`, missing from the sources:
`createRoom(name, owner, maxUsers) -> RoomHandle|Error`; an existing room is
a conflict. -/
def cli.RoomCreate (w : World) (room user : GoString) (max : Int) :
    Except CliError RoomRet × World :=
  match w.fault with
  | (some e, w1) => (.error e, w1)
  | (none, w1) =>
    if w1.rooms.any (fun r => r.Name == room) then (.error cli.ErrorConflict, w1)
    else (.ok ⟨room⟩, { w1 with rooms := w1.rooms ++ [⟨room, user, max⟩] })

/-- Modelled from the spec: `cli.InsertUser`, missing from the sources:
`insert(Account) -> Error|nil`; the name is the primary key, so an account of
the same name is a conflict. -/
def cli.InsertUser (w : World) (u : Users) : Option CliError × World :=
  match w.fault with
  | (some e, w1) => (some e, w1)
  | (none, w1) =>
    if w1.users.any (fun v => v.Name == u.Name) then (some cli.ErrorConflict, w1)
    else (none, { w1 with users := w1.users ++ [u] })

/-- Modelled from the spec: `cli.RoomDelete`, missing from the sources:
`deleteRoom(name) -> Error|nil`. -/
def cli.RoomDelete (w : World) (room : GoString) : Option CliError × World :=
  match w.fault with
  | (some e, w1) => (some e, w1)
  | (none, w1) => (none, { w1 with rooms := w1.rooms.filter fun r => r.Name != room })

/-- Modelled from the spec: `cli.UpdateUser`, missing from the sources:
`updateSecret(name, newSecret) -> Error|nil`. -/
def cli.UpdateUser (w : World) (name password : GoString) : Option CliError × World :=
  match w.fault with
  | (some e, w1) => (some e, w1)
  | (none, w1) =>
    (none, { w1 with users := w1.users.map fun u =>
      if u.Name = name then { u with Password := password } else u })

/-- Modelled from the spec: `cli.DeleteUser`, missing from the sources:
`deleteByName(name) -> Error|nil`, which deletes the account and its room; an
absent account is a no-op. -/
def cli.DeleteUser (w : World) (name : GoString) : Option CliError × World :=
  match w.fault with
  | (some e, w1) => (some e, w1)
  | (none, w1) =>
    match cli.findByName w1.users name with
    | none => (none, w1)
    | some u =>
      (none, { w1 with users := w1.users.filter (fun v => v.Name != name),
                       rooms := w1.rooms.filter fun r => r.Name != u.Room })

/-- Modelled from the spec: `cli.RoomStatus`, missing from the sources:
`roomStatus(name) -> {owner, maxUsers, status}|Error`. -/
def cli.RoomStatus (w : World) (room : GoString) : Except CliError RoomStatusRet :=
  match w.rooms.find? fun r => r.Name == room with
  | none => .error cli.ErrorNotFound
  | some r => .ok ⟨r.Name, r.Owner, r.UserMax, 0⟩

/-- Modelled from the spec: package `cli` and the stream hub, missing from the
sources, as the collaborators of the handlers over `World`. Token and URL
signing are "pure formatting". -/
def cli.collaborators : Collaborators World where
  QueryUser := fun w => cli.QueryUser w.users
  RoomCreate := cli.RoomCreate
  InsertUser := cli.InsertUser
  RoomDelete := cli.RoomDelete
  UpdateUser := cli.UpdateUser
  DeleteUser := cli.DeleteUser
  RoomStatus := cli.RoomStatus
  CreateToken := fun room user version => room ++ colon :: user ++ colon :: version
  hubCreate := fun w id => { w with streams := w.streams ++ [id] }
  RTMPPublishURL := fun id => str "rtmp://pili-publish.ps.pdex-service.com/" ++ id
  Now := fun w => w.clock

/-- A world with the one account `alice`/`secret1` and her room `room1`. -/
def aliceWorld : World :=
  ⟨[⟨str "alice", str "secret1", str "room1", 0⟩], [⟨str "room1", str "alice", 99⟩], [],
    1700000000, []⟩

/-- The handler has answered with a rejection and done nothing: the state is
as before and none of its calls acts on the store or the rooms. -/
def Handled.rejected {W : Type} (r : Handled W) (w : W) : Prop :=
  r.world = w ∧ r.response.code ≠ 200 ∧ ∀ call ∈ r.calls, call.acts = false

/-! ## Base64: decoding an encoding -/

theorem decodeMap_encode6_fin : ∀ v : Fin 64, decodeMap (encode6 v.val) = v.val := by decide

theorem decodeMap_encode6 (v : Nat) : decodeMap (encode6 v) = v % 64 := by
  have h := decodeMap_encode6_fin ⟨v % 64, Nat.mod_lt _ (by decide)⟩
  simpa [encode6] using h

theorem decodeMap_encode6_ne (v : Nat) : decodeMap (encode6 v) ≠ 0xFF := by
  rw [decodeMap_encode6]; omega

theorem decodeMap_padChar : decodeMap padChar = 0xFF := by decide

theorem isNewline_padChar : isNewline padChar = false := by decide

theorem decode_sextet (L : Nat) (out : List Byte) (dbuf : List Nat) (si v : Nat)
    (rest : List Byte) (h : dbuf.length ≠ 3) :
    decode L out dbuf si (encode6 v :: rest) = decode L out (dbuf ++ [v % 64]) (si + 1) rest := by
  rw [decode, if_pos (decodeMap_encode6_ne v), if_neg h, decodeMap_encode6]

theorem decode_sextet_last (L : Nat) (out : List Byte) (dbuf : List Nat) (si v : Nat)
    (rest : List Byte) (h : dbuf.length = 3) :
    decode L out dbuf si (encode6 v :: rest)
      = decode L (out ++ assemble (dbuf ++ [v % 64]) 4) [] (si + 1) rest := by
  rw [decode, if_pos (decodeMap_encode6_ne v), if_pos h, decodeMap_encode6]

theorem decode_pad (L : Nat) (out : List Byte) (dbuf : List Nat) (si : Nat)
    (rest : List Byte) :
    decode L out dbuf si (padChar :: rest) =
      match dbuf.length with
      | 0 => (out, some (.corruptInputError si))
      | 1 => (out, some (.corruptInputError si))
      | 2 =>
        match skipNewlines (si + 1) rest with
        | (_, []) => (out, some (.corruptInputError L))
        | (si2, c2 :: rest2) =>
          if c2 ≠ padChar then (out, some (.corruptInputError (si2 - 1)))
          else
            match skipNewlines (si2 + 1) rest2 with
            | (_, []) => (out ++ assemble dbuf 2, none)
            | (si3, _ :: _) => (out ++ assemble dbuf 2, some (.corruptInputError si3))
      | _ =>
        match skipNewlines (si + 1) rest with
        | (_, []) => (out ++ assemble dbuf 3, none)
        | (si3, _ :: _) => (out ++ assemble dbuf 3, some (.corruptInputError si3)) := by
  rw [decode, if_neg (by simp [decodeMap_padChar]), if_neg (by simp [isNewline_padChar]),
    if_neg (by simp)]

theorem assemble_three (a b c : Byte) :
    assemble [(a.val * 65536 + b.val * 256 + c.val) / 262144 % 64,
      (a.val * 65536 + b.val * 256 + c.val) / 4096 % 64,
      (a.val * 65536 + b.val * 256 + c.val) / 64 % 64,
      (a.val * 65536 + b.val * 256 + c.val) % 64] 4 = [a, b, c] := by
  have ha := a.isLt
  have hb := b.isLt
  have hc := c.isLt
  simp only [assemble, List.getD_cons_zero, List.getD_cons_succ, List.map, List.take]
  refine List.cons_eq_cons.mpr ⟨?_, List.cons_eq_cons.mpr ⟨?_, List.cons_eq_cons.mpr ⟨?_, rfl⟩⟩⟩
  all_goals (apply Fin.ext; simp [Fin.ofNat]; omega)

theorem assemble_two (a b : Byte) :
    assemble [(a.val * 65536 + b.val * 256) / 262144 % 64,
      (a.val * 65536 + b.val * 256) / 4096 % 64,
      (a.val * 65536 + b.val * 256) / 64 % 64] 3 = [a, b] := by
  have ha := a.isLt
  have hb := b.isLt
  simp only [assemble, List.getD_cons_zero, List.getD_cons_succ, List.map, List.take, List.getD_nil]
  refine List.cons_eq_cons.mpr ⟨?_, List.cons_eq_cons.mpr ⟨?_, rfl⟩⟩
  all_goals (apply Fin.ext; simp [Fin.ofNat]; omega)

theorem assemble_one (a : Byte) :
    assemble [(a.val * 65536) / 262144 % 64, (a.val * 65536) / 4096 % 64] 2 = [a] := by
  have ha := a.isLt
  simp only [assemble, List.getD_cons_zero, List.getD_cons_succ, List.map, List.take, List.getD_nil]
  refine List.cons_eq_cons.mpr ⟨?_, rfl⟩
  all_goals (apply Fin.ext; simp [Fin.ofNat]; omega)

/-- Decoding an encoded byte sequence gives the sequence back, from any
position of the decoder between two quanta. -/
theorem decode_EncodeToString (L : Nat) (b : List Byte) :
    ∀ (out : List Byte) (si : Nat),
      decode L out [] si (EncodeToString b) = (out ++ b, none) := by
  induction b using EncodeToString.induct with
  | case1 a b c rest ih =>
    intro out si
    rw [EncodeToString]
    rw [decode_sextet _ _ _ _ _ _ (by simp), decode_sextet _ _ _ _ _ _ (by simp),
      decode_sextet _ _ _ _ _ _ (by simp), decode_sextet_last _ _ _ _ _ _ (by simp)]
    simp only [List.nil_append, List.cons_append]
    rw [assemble_three, ih]
    simp
  | case2 a b =>
    intro out si
    rw [EncodeToString]
    rw [decode_sextet _ _ _ _ _ _ (by simp), decode_sextet _ _ _ _ _ _ (by simp),
      decode_sextet _ _ _ _ _ _ (by simp), decode_pad]
    simp only [List.nil_append, List.cons_append, List.length_cons, List.length_nil, skipNewlines]
    rw [assemble_two]
  | case3 a =>
    intro out si
    rw [EncodeToString]
    rw [decode_sextet _ _ _ _ _ _ (by simp), decode_sextet _ _ _ _ _ _ (by simp), decode_pad]
    simp only [List.nil_append, List.cons_append, List.length_cons, List.length_nil, skipNewlines]
    simp [isNewline_padChar, assemble_one, skipNewlines]
  | case4 =>
    intro out si
    simp [EncodeToString, decode]

/-- Round trip: `DecodeString(EncodeToString(b)) = (b, nil)`. -/
theorem DecodeString_EncodeToString (b : List Byte) :
    DecodeString (EncodeToString b) = (b, none) := by
  simpa [DecodeString] using decode_EncodeToString (EncodeToString b).length b [] 0
/-- Every error of the decoder is a `CorruptInputError`. -/
theorem decode_err (L : Nat) (rest : List Byte) :
    ∀ (out : List Byte) (dbuf : List Nat) (si : Nat) (b : List Byte) (e : GoError),
      decode L out dbuf si rest = (b, some e) → ∃ off, e = .corruptInputError off := by
  induction rest with
  | nil =>
    intro out dbuf si b e h
    rw [decode] at h
    split at h
    · simp at h
    · simp only [Prod.mk.injEq, Option.some.injEq] at h
      exact ⟨_, h.2.symm⟩
  | cons c rest ih =>
    intro out dbuf si b e h
    rw [decode] at h
    repeat' split at h
    all_goals first
      | exact ih _ _ _ _ _ h
      | (simp only [Prod.mk.injEq, Option.some.injEq] at h; exact ⟨_, h.2.symm⟩)
      | (simp only [Prod.mk.injEq] at h; exact absurd h.2 (by simp))

theorem DecodeString_err (token b : GoString) (e : GoError)
    (h : DecodeString token = (b, some e)) : ∃ off, e = .corruptInputError off :=
  decode_err _ _ _ _ _ _ _ h

/-! ## `strings.Split` -/

theorem Split_ne_nil (sep : Byte) (s : GoString) : Split sep s ≠ [] := by
  cases s with
  | nil => simp [Split]
  | cons c rest =>
    rw [Split]
    split
    · simp
    · split <;> simp

theorem Split_of_not_mem (sep : Byte) (s : GoString) (h : sep ∉ s) : Split sep s = [s] := by
  induction s with
  | nil => rfl
  | cons c rest ih =>
    have hc : c ≠ sep := fun e => h (by simp [e])
    have hr : sep ∉ rest := fun e => h (by simp [e])
    rw [Split, if_neg hc, ih hr]

theorem Split_append (sep : Byte) (n s : GoString) (h : sep ∉ n) :
    Split sep (n ++ sep :: s) = n :: Split sep s := by
  induction n with
  | nil => simp [Split]
  | cons c rest ih =>
    have hc : c ≠ sep := fun e => h (by simp [e])
    have hr : sep ∉ rest := fun e => h (by simp [e])
    rw [List.cons_append, Split, if_neg hc, ih hr]

theorem Split_length (sep : Byte) (s : GoString) :
    (Split sep s).length = s.count sep + 1 := by
  induction s with
  | nil => rfl
  | cons c rest ih =>
    rw [Split]
    by_cases hc : c = sep
    · subst hc
      simp [ih]
    · rw [if_neg hc]
      have hcount : (c :: rest).count sep = rest.count sep := by
        rw [List.count_cons]
        simp [hc]
      rw [hcount, ← ih]
      cases hS : Split sep rest with
      | nil => exact absurd hS (Split_ne_nil sep rest)
      | cons p ps => simp

/-- A payload splits into exactly the two pieces `n`, `s` if and only if it
is `n`, a separator, `s`, with no separator inside `n` or `s`. -/
theorem Split_eq_pair (sep : Byte) (p n s : GoString) :
    Split sep p = [n, s] ↔ p = n ++ sep :: s ∧ sep ∉ n ∧ sep ∉ s := by
  constructor
  · induction p generalizing n with
    | nil => intro h; simp [Split] at h
    | cons c rest ih =>
      intro h
      rw [Split] at h
      by_cases hc : c = sep
      · subst hc
        rw [if_pos rfl] at h
        have h1 : n = [] := by
          have := (List.cons_eq_cons.mp h).1
          exact this.symm
        have h2 : Split c rest = [s] := (List.cons_eq_cons.mp h).2
        subst h1
        have hlen := Split_length c rest
        rw [h2] at hlen
        have hcnt : rest.count c = 0 := by simpa using hlen.symm
        have hnm : c ∉ rest := List.count_eq_zero.mp hcnt
        rw [Split_of_not_mem c rest hnm] at h2
        have h3 : rest = s := by simpa using h2
        subst h3
        exact ⟨rfl, by simp, hnm⟩
      · rw [if_neg hc] at h
        cases hS : Split sep rest with
        | nil => exact absurd hS (Split_ne_nil sep rest)
        | cons q qs =>
          rw [hS] at h
          simp only at h
          have h1 : c :: q = n := (List.cons_eq_cons.mp h).1
          have h2 : qs = [s] := (List.cons_eq_cons.mp h).2
          subst h1 h2
          obtain ⟨e, hq, hs⟩ := ih q hS
          refine ⟨by rw [e]; rfl, ?_, hs⟩
          intro hm
          rcases List.mem_cons.mp hm with hm | hm
          · exact hc hm.symm
          · exact hq hm
  · rintro ⟨rfl, hn, hs⟩
    rw [Split_append sep n s hn, Split_of_not_mem sep s hs]

theorem count_pair (sep : Byte) (n s : GoString) (hn : sep ∉ n) (hs : sep ∉ s) :
    (n ++ sep :: s).count sep = 1 := by
  rw [List.count_append, List.count_cons]
  simp [List.count_eq_zero.mpr hn, List.count_eq_zero.mpr hs]

/-- A payload with exactly one separator splits in two at it. -/
theorem Split_of_count_one (sep : Byte) (n s : GoString)
    (h : (n ++ sep :: s).count sep = 1) : Split sep (n ++ sep :: s) = [n, s] := by
  rw [List.count_append, List.count_cons] at h
  simp at h
  have hn : sep ∉ n := List.count_eq_zero.mp (by omega)
  have hs : sep ∉ s := List.count_eq_zero.mp (by omega)
  exact (Split_eq_pair sep _ n s).mpr ⟨rfl, hn, hs⟩

/-! ## `UnderOfAuthority` and `authorization`, case by case -/

theorem EncodeToString_ne_nil (b : List Byte) (h : b ≠ []) : EncodeToString b ≠ [] := by
  match b, h with
  | [_], _ => simp [EncodeToString]
  | [_, _], _ => simp [EncodeToString]
  | _ :: _ :: _ :: _, _ => simp [EncodeToString]

theorem Split_length_two (sep : Byte) (p : GoString) (h : (Split sep p).length = 2) :
    ∃ n s, Split sep p = [n, s] := by
  match hS : Split sep p, h with
  | [n, s], _ => exact ⟨n, s, rfl⟩

theorem UnderOfAuthority_decode_err (Q : GoString → GoString → Option CliError)
    (token b : GoString) (e : GoError) (h : DecodeString token = (b, some e)) :
    UnderOfAuthority Q token
      = some ⟨[], some e, [.logInfof token, .decodeString token]⟩ := by
  simp [UnderOfAuthority, h]

theorem UnderOfAuthority_split_ne (Q : GoString → GoString → Option CliError)
    (token p : GoString) (h : DecodeString token = (p, none))
    (hs : (Split colon p).length ≠ 2) :
    UnderOfAuthority Q token
      = some ⟨[], some (.errorsNew (str "the authorization error, " ++ token)),
          [.logInfof token, .decodeString token]⟩ := by
  simp [UnderOfAuthority, h, hs]

theorem UnderOfAuthority_pair (Q : GoString → GoString → Option CliError)
    (token p n s : GoString) (h : DecodeString token = (p, none))
    (hs : Split colon p = [n, s]) :
    UnderOfAuthority Q token =
      match Q n s with
      | some existErr =>
        some ⟨[], some (.cli existErr),
          [.logInfof token, .decodeString token, .queryUser n s]⟩
      | none => some ⟨n, none, [.logInfof token, .decodeString token, .queryUser n s]⟩ := by
  cases hQ : Q n s <;> simp [UnderOfAuthority, h, hs, hQ]

theorem authorization_of_ne_nil (Q : GoString → GoString → Option CliError)
    (token : GoString) (h : token ≠ []) :
    authorization Q token = UnderOfAuthority Q token := by
  simp [authorization, h]

/-! ## The token authorizer -/

/-- C1 (as stated, refuted): the store holds the account `a:b` with secret
`c` and accepts the pair, yet the token `base64("a:b:c")` is rejected as
malformed, because the payload splits into three parts. -/
theorem authorization_rejects_colon_in_name :
    cli.QueryUser [⟨str "a:b", str "c", str "r", 0⟩] (str "a:b") (str "c") = none ∧
    authorization (cli.QueryUser [⟨str "a:b", str "c", str "r", 0⟩])
        (EncodeToString (str "a:b" ++ colon :: str "c"))
      = some ⟨[], some (.errorsNew (str "the authorization error, YTpiOmM=")),
          [.logInfof (str "YTpiOmM="), .decodeString (str "YTpiOmM=")]⟩ := by
  decide

/-- C1 (amended): for every identity `name` and secret `secret`, neither
containing `:`, that the account store accepts, `authorization` of
`base64Std(name ++ ":" ++ secret)` returns `(name, nil)`, after one log line,
one decoding and one store lookup. -/
theorem authorization_accepts (Q : GoString → GoString → Option CliError)
    (name secret : GoString) (hn : colon ∉ name) (hs : colon ∉ secret)
    (hQ : Q name secret = none) :
    authorization Q (EncodeToString (name ++ colon :: secret))
      = some ⟨name, none,
          [.logInfof (EncodeToString (name ++ colon :: secret)),
           .decodeString (EncodeToString (name ++ colon :: secret)),
           .queryUser name secret]⟩ := by
  rw [authorization_of_ne_nil Q _ (EncodeToString_ne_nil _ (by simp)),
    UnderOfAuthority_pair Q _ _ name secret (DecodeString_EncodeToString _)
      ((Split_eq_pair colon _ name secret).mpr ⟨rfl, hn, hs⟩), hQ]

/-- C1 (witness): the store holds `alice`/`secret1`, the token is
`base64("alice:secret1")`, the result is `alice`. -/
theorem authorization_accepts_witness :
    EncodeToString (str "alice" ++ colon :: str "secret1") = str "YWxpY2U6c2VjcmV0MQ==" ∧
    authorization (cli.QueryUser [⟨str "alice", str "secret1", str "room1", 0⟩])
        (EncodeToString (str "alice" ++ colon :: str "secret1"))
      = some ⟨str "alice", none,
          [.logInfof (EncodeToString (str "alice" ++ colon :: str "secret1")),
           .decodeString (EncodeToString (str "alice" ++ colon :: str "secret1")),
           .queryUser (str "alice") (str "secret1")]⟩ :=
  ⟨by decide,
   authorization_accepts (cli.QueryUser [⟨str "alice", str "secret1", str "room1", 0⟩])
     (str "alice") (str "secret1") (by decide) (by decide) (by decide)⟩

/-- The three outcomes of `authorization`: it returns; a nil error comes with
a token that decodes to `n ++ ":" ++ s` accepted by the store; anything else
comes with an error and the empty identity. -/
theorem authorization_cases (Q : GoString → GoString → Option CliError) (token : GoString) :
    (∃ r, authorization Q token = some r) ∧
    (∀ n ev, authorization Q token = some ⟨n, none, ev⟩ →
      token ≠ [] ∧ ∃ s, DecodeString token = (n ++ colon :: s, none) ∧
        (n ++ colon :: s).count colon = 1 ∧ Q n s = none) ∧
    (¬ (token ≠ [] ∧ ∃ n s, DecodeString token = (n ++ colon :: s, none) ∧
        (n ++ colon :: s).count colon = 1 ∧ Q n s = none) →
      ∃ e ev, authorization Q token = some ⟨[], some e, ev⟩) := by
  by_cases ht : token = []
  · subst ht
    refine ⟨⟨_, rfl⟩, ?_, fun _ => ⟨_, _, rfl⟩⟩
    intro n ev h
    simp [authorization] at h
  · rw [authorization_of_ne_nil Q token ht]
    rcases hd : DecodeString token with ⟨p, _ | e⟩
    · by_cases hl : (Split colon p).length = 2
      · obtain ⟨n, s, hS⟩ := Split_length_two colon p hl
        obtain ⟨hp, hn, hs⟩ := (Split_eq_pair colon p n s).mp hS
        rw [UnderOfAuthority_pair Q token p n s hd hS]
        cases hQ : Q n s with
        | none =>
          refine ⟨⟨_, rfl⟩, ?_, ?_⟩
          · intro n' ev h
            simp only [Option.some.injEq, Ret.mk.injEq] at h
            obtain ⟨rfl, -, -⟩ := h
            exact ⟨ht, s, by rw [hp], count_pair colon n s hn hs, hQ⟩
          · intro hneg
            exact absurd ⟨ht, n, s, by rw [hp], count_pair colon n s hn hs, hQ⟩ hneg
        | some e =>
          refine ⟨⟨_, rfl⟩, ?_, fun _ => ⟨_, _, rfl⟩⟩
          intro n' ev h
          simp at h
      · rw [UnderOfAuthority_split_ne Q token p hd hl]
        refine ⟨⟨_, rfl⟩, ?_, fun _ => ⟨_, _, rfl⟩⟩
        intro n' ev h
        simp at h
    · rw [UnderOfAuthority_decode_err Q token p e hd]
      refine ⟨⟨_, rfl⟩, ?_, fun _ => ⟨_, _, rfl⟩⟩
      intro n' ev h
      simp at h

/-- C2: `authorization` never panics; when it returns a nil error with
identity `n`, the token is non-empty and decodes to `n ++ ":" ++ s` with
exactly one `:` for a secret `s` such that the store accepts `(n, s)`; for
every other input it returns a non-nil error and the empty identity. -/
theorem authorization_sound (Q : GoString → GoString → Option CliError) (token : GoString) :
    (∃ r, authorization Q token = some r) ∧
    (∀ n ev, authorization Q token = some ⟨n, none, ev⟩ →
      token ≠ [] ∧ ∃ s, DecodeString token = (n ++ colon :: s, none) ∧
        (n ++ colon :: s).count colon = 1 ∧ Q n s = none) ∧
    (¬ (token ≠ [] ∧ ∃ n s, DecodeString token = (n ++ colon :: s, none) ∧
        (n ++ colon :: s).count colon = 1 ∧ Q n s = none) →
      ∃ e ev, authorization Q token = some ⟨[], some e, ev⟩) :=
  authorization_cases Q token

/-- C3 (as stated, refuted): the payload `alice:` has an empty secret, yet the
token `base64("alice:")` is not rejected as malformed: its two parts go to
the store lookup, whose error comes back. -/
theorem authorization_empty_secret_not_malformed :
    DecodeString (str "YWxpY2U6") = (str "alice:", none) ∧
    Split colon (str "alice:") = [str "alice", []] ∧
    authorization (cli.QueryUser [⟨str "alice", str "secret1", str "room1", 0⟩])
        (str "YWxpY2U6")
      = some ⟨[], some (.cli cli.ErrorInvalidCredential),
          [.logInfof (str "YWxpY2U6"), .decodeString (str "YWxpY2U6"),
           .queryUser (str "alice") []]⟩ ∧
    isErrorMalformedCredential (str "YWxpY2U6") (.cli cli.ErrorInvalidCredential) = false := by
  decide

/-- C3 (amended): for every non-empty token that fails to decode, or whose
decoded payload does not split on `:` into exactly two parts, `authorization`
returns the malformed-credential rejection with the empty identity, whatever
the store answers, without consulting the store; it is neither the
invalid-credential rejection nor a success. -/
theorem authorization_malformed (Q : GoString → GoString → Option CliError)
    (token : GoString) (hne : token ≠ [])
    (hbad : (DecodeString token).2 ≠ none ∨
      (Split colon (DecodeString token).1).length ≠ 2) :
    ∃ e, authorization Q token
        = some ⟨[], some e, [.logInfof token, .decodeString token]⟩ ∧
      isErrorMalformedCredential token e = true ∧
      isErrorInvalidCredential e = false ∧ isErrorMissingCredential e = false := by
  rw [authorization_of_ne_nil Q token hne]
  rcases hd : DecodeString token with ⟨p, _ | e⟩
  · rw [hd] at hbad
    have hl : (Split colon p).length ≠ 2 := by
      rcases hbad with h | h
      · exact absurd rfl h
      · exact h
    refine ⟨_, UnderOfAuthority_split_ne Q token p hd hl, ?_, rfl, ?_⟩
    · simp [isErrorMalformedCredential]
    · simp only [isErrorMissingCredential, beq_eq_false_iff_ne, ne_eq]
      intro h
      have h1 : str "the authorization error, " = (116 : Byte) :: str "he authorization error, " := by
        decide
      have h2 : str "authorization is null" = (97 : Byte) :: str "uthorization is null" := by
        decide
      rw [h1, h2] at h
      simp at h
  · obtain ⟨off, rfl⟩ := DecodeString_err token p e hd
    exact ⟨_, UnderOfAuthority_decode_err Q token p _ hd, rfl, rfl, rfl⟩
/-- C3 (witness): the token `base64("alice")` is non-empty and decodes to a
payload without `:`; it is rejected as malformed. -/
theorem authorization_malformed_witness :
    str "YWxpY2U=" ≠ [] ∧ DecodeString (str "YWxpY2U=") = (str "alice", none) ∧
    ∃ e, authorization (cli.QueryUser [⟨str "alice", str "secret1", str "room1", 0⟩])
          (str "YWxpY2U=")
        = some ⟨[], some e, [.logInfof (str "YWxpY2U="), .decodeString (str "YWxpY2U=")]⟩ ∧
      isErrorMalformedCredential (str "YWxpY2U=") e = true ∧
      isErrorInvalidCredential e = false ∧ isErrorMissingCredential e = false :=
  ⟨by decide, by decide,
   authorization_malformed (cli.QueryUser [⟨str "alice", str "secret1", str "room1", 0⟩])
     (str "YWxpY2U=") (by decide) (Or.inr (by decide))⟩

theorem QueryUser_reject_iff (db : List Users) (name secret : GoString) :
    (∃ e, cli.QueryUser db name secret = some e) ↔
      (cli.findByName db name = none ∨
        ∃ u, cli.findByName db name = some u ∧ u.Password ≠ secret) := by
  unfold cli.QueryUser
  cases hf : cli.findByName db name with
  | none => simp
  | some u =>
    by_cases hp : u.Password = secret <;> simp [hp]

/-- C4: for every token that decodes to a payload with exactly two
colon-separated parts `(name, secret)`, `authorization` returns the error of
the store lookup `cli.QueryUser` (the invalid-credential rejection) if and
only if the store has no account of that name or the stored secret differs
from the supplied one. -/
theorem authorization_invalid_iff (db : List Users) (token payload name secret : GoString)
    (hd : DecodeString token = (payload, none))
    (hs : Split colon payload = [name, secret]) :
    (∀ e, (∃ ev, authorization (cli.QueryUser db) token = some ⟨[], some (.cli e), ev⟩) ↔
      cli.QueryUser db name secret = some e) ∧
    ((∃ e ev, authorization (cli.QueryUser db) token = some ⟨[], some e, ev⟩ ∧
        isErrorInvalidCredential e = true) ↔
      (cli.findByName db name = none ∨
        ∃ u, cli.findByName db name = some u ∧ u.Password ≠ secret)) := by
  have hne : token ≠ [] := by
    rintro rfl
    have h0 : DecodeString [] = ([], none) := rfl
    rw [h0] at hd
    have hp : payload = [] := by
      have := congrArg Prod.fst hd
      exact this.symm
    subst hp
    simp [Split] at hs
  rw [authorization_of_ne_nil _ token hne,
    UnderOfAuthority_pair _ token payload name secret hd hs, ← QueryUser_reject_iff]
  cases hQ : cli.QueryUser db name secret with
  | none => simp
  | some e0 =>
    refine ⟨fun e => ?_, ?_⟩
    · simp
    · simp [isErrorInvalidCredential]

/-- C4 (witness): with the stored account `alice`/`secret1`, the token
`base64("alice:wrong")` is rejected with the invalid-credential error. -/
theorem authorization_invalid_iff_witness :
    DecodeString (str "YWxpY2U6d3Jvbmc=") = (str "alice:wrong", none) ∧
    Split colon (str "alice:wrong") = [str "alice", str "wrong"] ∧
    ∃ e ev, authorization (cli.QueryUser [⟨str "alice", str "secret1", str "room1", 0⟩])
          (str "YWxpY2U6d3Jvbmc=") = some ⟨[], some e, ev⟩ ∧
      isErrorInvalidCredential e = true :=
  ⟨by decide, by decide,
   (authorization_invalid_iff [⟨str "alice", str "secret1", str "room1", 0⟩]
      (str "YWxpY2U6d3Jvbmc=") (str "alice:wrong") (str "alice") (str "wrong")
      (by decide) (by decide)).2.mpr
     (Or.inr ⟨⟨str "alice", str "secret1", str "room1", 0⟩, by decide, by decide⟩)⟩

/-- C5: `authorization("")` returns the missing-credential rejection, text
`authorization is null`, with the empty identity, whatever the store
answers, and with no event at all: no log line of `UnderOfAuthority`, no
decoding, no store lookup. -/
theorem authorization_empty (Q : GoString → GoString → Option CliError) :
    authorization Q [] = some ⟨[], some (.errorsNew (str "authorization is null")), []⟩ ∧
    isErrorMissingCredential (.errorsNew (str "authorization is null")) = true ∧
    isErrorMalformedCredential [] (.errorsNew (str "authorization is null")) = false ∧
    isErrorInvalidCredential (.errorsNew (str "authorization is null")) = false :=
  ⟨rfl, by decide, by decide, by decide⟩

/-! ## The expiry sweeper -/

theorem int64_of_range (x : Int) (h1 : -(2 : Int) ^ 63 ≤ x) (h2 : x < 2 ^ 63) : int64 x = x := by
  unfold int64
  omega

theorem Second_eq : time.Second = 1000000000 := rfl

theorem Minute_eq : time.Minute = 60000000000 := by decide

theorem Hour_eq : time.Hour = 3600000000000 := by decide

theorem nsPerDay_eq : time.nsPerDay = 86400000000000 := by decide

theorem next_eq (now : Int) :
    startTimer.next now = (now / 86400000000000 + 1) * 86400000000000 + 86399000000059 := by
  simp only [startTimer.next, time.Date, time.YearMonthDay, time.Add, nsPerDay_eq, Hour_eq,
    Minute_eq, Second_eq]
  omega

/-- C7: on every cycle, with `now` the Unix time read (within the range in
which `int64` does not wrap), the cutoff handed to `cli.DeleteUserByTimer` is
exactly `now - 2592000`; under the store contract that accounts with
creation time at or before the cutoff are deleted, an account created at
`now - 31 days` is in the deletion set and one created at `now - 29 days`
is not. -/
theorem startTimer_cutoff (unix : Int) (now : Int)
    (hlo : -(2 : Int) ^ 63 + 2592000 ≤ unix) (hhi : unix < 2 ^ 63) :
    (startTimer.cycle unix now).ttl = unix - 2592000 ∧
    2592000 = 30 * 24 * 60 * 60 ∧
    ∀ (db : List Users) (u : Users), u ∈ db →
      (u.Deadline = unix - 31 * 86400 →
        u ∈ (cli.DeleteUserByTimer db (startTimer.cycle unix now).ttl).1) ∧
      (u.Deadline = unix - 29 * 86400 →
        u ∉ (cli.DeleteUserByTimer db (startTimer.cycle unix now).ttl).1) := by
  have httl : (startTimer.cycle unix now).ttl = unix - 2592000 := by
    simp only [startTimer.cycle, startTimer.ttl]
    rw [int64_of_range _ (by omega) (by omega)]
    omega
  refine ⟨httl, by norm_num, ?_⟩
  intro db u hu
  rw [httl]
  simp only [cli.DeleteUserByTimer, List.mem_filter, decide_eq_true_eq]
  constructor
  · intro h
    exact ⟨hu, by omega⟩
  · intro h hmem
    omega

/-- C7 (witness): at Unix time 1700000000 the cutoff is 1697408000; of two
accounts created 31 and 29 days earlier, only the first is deleted. -/
theorem startTimer_cutoff_witness :
    (startTimer.cycle 1700000000 0).ttl = 1700000000 - 2592000 ∧
    2592000 = 30 * 24 * 60 * 60 ∧
    ∀ (db : List Users) (u : Users), u ∈ db →
      (u.Deadline = 1700000000 - 31 * 86400 →
        u ∈ (cli.DeleteUserByTimer db (startTimer.cycle 1700000000 0).ttl).1) ∧
      (u.Deadline = 1700000000 - 29 * 86400 →
        u ∉ (cli.DeleteUserByTimer db (startTimer.cycle 1700000000 0).ttl).1) :=
  startTimer_cutoff 1700000000 0 (by norm_num) (by norm_num)

/-- C8 (the code at the failing input): a sweep finishes at 10:00 on day 0.
The wake-up instant is 23:59:59.000000059 on day 1, although 23:59:59 on
day 0 is later than `now`, earlier than that wake-up and has the time of
day 23:59:59. -/
theorem startTimer_next_at_ten :
    startTimer.next (time.Date 0 10 0 0 0) = time.Date 1 23 59 59 59 ∧
    (startTimer.cycle 1700000000 (time.Date 0 10 0 0 0)).timer
      = 37 * time.Hour + 59 * time.Minute + 59 * time.Second + 59 ∧
    time.Date 0 10 0 0 0 < time.Date 0 23 59 59 0 ∧
    time.Date 0 23 59 59 0 < startTimer.next (time.Date 0 10 0 0 0) ∧
    time.nsOfDay (time.Date 0 23 59 59 0) = 23 * time.Hour + 59 * time.Minute + 59 * time.Second ∧
    startTimer.next (time.Date 0 10 0 0 0) ≠ time.Date 0 23 59 59 0 := by
  decide

/-- C10: for `now` on calendar day `D`, `n` nanoseconds into the day, the
wake-up instant is 23:59:59.000000059 on day `D + 1`; the timer's duration
is `172799 * 10^9 + 59 - n` nanoseconds, positive, more than 23h59m59s and at
most 47h59m59s + 59ns; and when a sweep starts at `s`, at or after a wake-up
`next now`, and the following reading `now2` is taken after it, the next
wake-up is on the calendar day after the first one only if `now2` is on the
day of `s`. -/
theorem startTimer_next_day (D n : Int) (h0 : 0 ≤ n) (h1 : n < 86400 * 10 ^ 9) :
    time.YearMonthDay (D * time.nsPerDay + n) = D ∧
    time.nsOfDay (D * time.nsPerDay + n) = n ∧
    startTimer.next (D * time.nsPerDay + n) = time.Date (D + 1) 23 59 59 59 ∧
    time.YearMonthDay (startTimer.next (D * time.nsPerDay + n)) = D + 1 ∧
    time.nsOfDay (startTimer.next (D * time.nsPerDay + n))
      = 23 * time.Hour + 59 * time.Minute + 59 * time.Second + 59 ∧
    (∀ unix, (startTimer.cycle unix (D * time.nsPerDay + n)).timer
      = 172799 * 10 ^ 9 + 59 - n) ∧
    0 < time.Sub (startTimer.next (D * time.nsPerDay + n)) (D * time.nsPerDay + n) ∧
    23 * time.Hour + 59 * time.Minute + 59 * time.Second
      < time.Sub (startTimer.next (D * time.nsPerDay + n)) (D * time.nsPerDay + n) ∧
    time.Sub (startTimer.next (D * time.nsPerDay + n)) (D * time.nsPerDay + n)
      ≤ 47 * time.Hour + 59 * time.Minute + 59 * time.Second + 59 ∧
    ∀ s now2 : Int, startTimer.next (D * time.nsPerDay + n) ≤ s → s ≤ now2 →
      time.YearMonthDay (startTimer.next now2)
        = time.YearMonthDay (startTimer.next (D * time.nsPerDay + n)) + 1 →
      time.YearMonthDay now2 = time.YearMonthDay s := by
  norm_num at h1
  have hsub : time.Sub (startTimer.next (D * time.nsPerDay + n)) (D * time.nsPerDay + n)
      = 172799 * 10 ^ 9 + 59 - n := by
    rw [next_eq]
    simp only [time.Sub, nsPerDay_eq, Hour_eq, Minute_eq, Second_eq]
    norm_num
    split_ifs <;> omega
  refine ⟨?_, ?_, ?_, ?_, ?_, ?_, ?_, ?_, ?_, ?_⟩
  · simp only [time.YearMonthDay, nsPerDay_eq, Hour_eq, Minute_eq, Second_eq]
    omega
  · simp only [time.nsOfDay, nsPerDay_eq, Hour_eq, Minute_eq, Second_eq]
    omega
  · rw [next_eq]
    simp only [time.Date, nsPerDay_eq, Hour_eq, Minute_eq, Second_eq]
    omega
  · rw [next_eq]
    simp only [time.YearMonthDay, nsPerDay_eq, Hour_eq, Minute_eq, Second_eq]
    omega
  · rw [next_eq]
    simp only [time.nsOfDay, nsPerDay_eq, Hour_eq, Minute_eq, Second_eq]
    omega
  · intro unix
    simp only [startTimer.cycle]
    exact hsub
  · rw [hsub]; omega
  · rw [hsub]
    simp only [Hour_eq, Minute_eq, Second_eq]
    omega
  · rw [hsub]
    simp only [Hour_eq, Minute_eq, Second_eq]
    omega
  · intro s now2 hs h2 h
    rw [next_eq] at hs
    rw [next_eq, next_eq] at h
    simp only [time.YearMonthDay, nsPerDay_eq] at hs h ⊢
    omega

/-- C10 (witness): at 10:00 on day 0 the wake-up instant is
23:59:59.000000059 on day 1 and the timer runs 37h59m59s + 59ns. -/
theorem startTimer_next_day_witness :
    (0 : Int) ≤ 36000000000000 ∧ (36000000000000 : Int) < 86400 * 10 ^ 9 ∧
    startTimer.next (0 * time.nsPerDay + 36000000000000) = time.Date (0 + 1) 23 59 59 59 ∧
    (∀ unix, (startTimer.cycle unix (0 * time.nsPerDay + 36000000000000)).timer
      = 172799 * 10 ^ 9 + 59 - 36000000000000) :=
  ⟨by norm_num, by norm_num,
   (startTimer_next_day 0 36000000000000 (by norm_num) (by norm_num)).2.2.1,
   (startTimer_next_day 0 36000000000000 (by norm_num) (by norm_num)).2.2.2.2.2.1⟩

/-! ## The handlers -/

theorem userUpdate_gated {W : Type} (cli : Collaborators W) (w : W)
    (c : Context ReqUpdateUser) :
    ∃ r, userUpdate cli c w = some r ∧
      r.calls.head? = some (.authorization c.Authorization) ∧
      ((∃ ev, authorization (cli.QueryUser w) c.Authorization = some ⟨c.Param, none, ev⟩) ∨
        r.rejected w) := by
  obtain ⟨⟨n, e, ev⟩, h⟩ := (authorization_cases (cli.QueryUser w) c.Authorization).1
  unfold userUpdate
  simp only [h]
  cases e with
  | some e => exact ⟨_, rfl, rfl, Or.inr ⟨rfl, by simp [message], by simp [Call.acts]⟩⟩
  | none =>
    simp only
    by_cases h1 : c.Param = []
    · rw [if_pos h1]
      exact ⟨_, rfl, rfl, Or.inr ⟨rfl, by simp [message], by simp [Call.acts]⟩⟩
    · rw [if_neg h1]
      by_cases h2 : c.Param ≠ n
      · rw [if_pos h2]
        exact ⟨_, rfl, rfl, Or.inr ⟨rfl, by simp [message], by simp [Call.acts]⟩⟩
      · rw [if_neg h2]
        have h3 : c.Param = n := not_not.mp h2
        have hok : ∃ ev', (some ⟨n, none, ev⟩ : Option Ret) = some ⟨c.Param, none, ev'⟩ :=
          ⟨ev, by rw [h3]⟩
        cases hb : c.BindJSON with
        | none => exact ⟨_, rfl, rfl, Or.inl hok⟩
        | some reqInfo =>
          simp only
          rcases hu : cli.UpdateUser w c.Param reqInfo.Password with ⟨_ | e, w1⟩ <;>
            exact ⟨_, rfl, rfl, Or.inl hok⟩

theorem userDelete_gated {W : Type} (cli : Collaborators W) (w : W) (c : Context Unit) :
    ∃ r, userDelete cli c w = some r ∧
      r.calls.head? = some (.authorization c.Authorization) ∧
      ((∃ ev, authorization (cli.QueryUser w) c.Authorization = some ⟨c.Param, none, ev⟩) ∨
        r.rejected w) := by
  obtain ⟨⟨n, e, ev⟩, h⟩ := (authorization_cases (cli.QueryUser w) c.Authorization).1
  unfold userDelete
  simp only [h]
  cases e with
  | some e => exact ⟨_, rfl, rfl, Or.inr ⟨rfl, by simp [message], by simp [Call.acts]⟩⟩
  | none =>
    simp only
    by_cases h1 : c.Param = []
    · rw [if_pos h1]
      exact ⟨_, rfl, rfl, Or.inr ⟨rfl, by simp [message], by simp [Call.acts]⟩⟩
    · rw [if_neg h1]
      by_cases h2 : c.Param ≠ n
      · rw [if_pos h2]
        exact ⟨_, rfl, rfl, Or.inr ⟨rfl, by simp [message], by simp [Call.acts]⟩⟩
      · rw [if_neg h2]
        have h3 : c.Param = n := not_not.mp h2
        have hok : ∃ ev', (some ⟨n, none, ev⟩ : Option Ret) = some ⟨c.Param, none, ev'⟩ :=
          ⟨ev, by rw [h3]⟩
        rcases hu : cli.DeleteUser w c.Param with ⟨_ | e, w1⟩ <;>
          exact ⟨_, rfl, rfl, Or.inl hok⟩

theorem roomNew_gated {W : Type} (cli : Collaborators W) (w : W) (c : Context ReqNewRoomBody) :
    ∃ r, roomNew cli c w = some r ∧
      r.calls.head? = some (.authorization c.Authorization) ∧
      ((∃ author ev,
          authorization (cli.QueryUser w) c.Authorization = some ⟨author, none, ev⟩) ∨
        r.rejected w) := by
  obtain ⟨⟨n, e, ev⟩, h⟩ := (authorization_cases (cli.QueryUser w) c.Authorization).1
  unfold roomNew
  simp only [h]
  cases e with
  | some e => exact ⟨_, rfl, rfl, Or.inr ⟨rfl, by simp [message], by simp [Call.acts]⟩⟩
  | none =>
    simp only
    have hok : ∃ author ev', (some ⟨n, none, ev⟩ : Option Ret) = some ⟨author, none, ev'⟩ :=
      ⟨n, ev, rfl⟩
    cases hb : c.BindJSON with
    | none => exact ⟨_, rfl, rfl, Or.inl hok⟩
    | some reqInfo =>
      simp only
      by_cases h1 : reqInfo.Room = [] ∨ reqInfo.User = []
      · rw [if_pos h1]
        exact ⟨_, rfl, rfl, Or.inl hok⟩
      · rw [if_neg h1]
        rcases hu : cli.RoomCreate w reqInfo.Room reqInfo.User
            (if reqInfo.Max ≤ 0 then 99 else reqInfo.Max) with ⟨_ | _, w1⟩ <;>
          exact ⟨_, rfl, rfl, Or.inl hok⟩

theorem roomDelete_gated {W : Type} (cli : Collaborators W) (w : W) (c : Context Unit) :
    ∃ r, roomDelete cli c w = some r ∧
      r.calls.head? = some (.authorization c.Authorization) ∧
      ((∃ ev st, cli.RoomStatus w c.Param = .ok st ∧
          authorization (cli.QueryUser w) c.Authorization
            = some ⟨st.OwnerUserID, none, ev⟩) ∨
        r.rejected w) := by
  obtain ⟨⟨n, e, ev⟩, h⟩ := (authorization_cases (cli.QueryUser w) c.Authorization).1
  unfold roomDelete
  simp only [h]
  cases e with
  | some e => exact ⟨_, rfl, rfl, Or.inr ⟨rfl, by simp [message], by simp [Call.acts]⟩⟩
  | none =>
    simp only
    cases hs : cli.RoomStatus w c.Param with
    | error e =>
      exact ⟨_, rfl, rfl, Or.inr ⟨rfl, by simp [message], by simp [Call.acts]⟩⟩
    | ok st =>
      simp only
      by_cases h2 : n ≠ st.OwnerUserID
      · rw [if_pos h2]
        exact ⟨_, rfl, rfl, Or.inr ⟨rfl, by simp [message], by simp [Call.acts]⟩⟩
      · rw [if_neg h2]
        have h3 : n = st.OwnerUserID := not_not.mp h2
        have hok : ∃ ev' st', Except.ok st = (Except.ok st' : Except CliError RoomStatusRet) ∧
            (some ⟨n, none, ev⟩ : Option Ret) = some ⟨st'.OwnerUserID, none, ev'⟩ :=
          ⟨ev, st, rfl, by rw [h3]⟩
        rcases hu : cli.RoomDelete w c.Param with ⟨_ | e, w1⟩ <;>
          exact ⟨_, rfl, rfl, Or.inl hok⟩

theorem roomToken_gated {W : Type} (cli : Collaborators W) (w : W)
    (c : Context ReqNewRoomTokenBody) :
    ∃ r, roomToken cli c w = some r ∧
      r.calls.head? = some (.authorization c.Authorization) ∧
      ((∃ author ev,
          authorization (cli.QueryUser w) c.Authorization = some ⟨author, none, ev⟩) ∨
        r.rejected w) := by
  obtain ⟨⟨n, e, ev⟩, h⟩ := (authorization_cases (cli.QueryUser w) c.Authorization).1
  unfold roomToken
  simp only [h]
  cases e with
  | some e => exact ⟨_, rfl, rfl, Or.inr ⟨rfl, by simp [message], by simp [Call.acts]⟩⟩
  | none =>
    simp only
    have hok : ∃ author ev', (some ⟨n, none, ev⟩ : Option Ret) = some ⟨author, none, ev'⟩ :=
      ⟨n, ev, rfl⟩
    cases hb : c.BindJSON with
    | none => exact ⟨_, rfl, rfl, Or.inl hok⟩
    | some reqInfo => exact ⟨_, rfl, rfl, Or.inl hok⟩

theorem streamCreate_gated {W : Type} (cli : Collaborators W) (w : W) (c : Context Unit) :
    ∃ r, streamCreate cli c w = some r ∧
      r.calls.head? = some (.authorization c.Authorization) ∧
      ((∃ author ev,
          authorization (cli.QueryUser w) c.Authorization = some ⟨author, none, ev⟩) ∨
        r.rejected w) := by
  obtain ⟨⟨n, e, ev⟩, h⟩ := (authorization_cases (cli.QueryUser w) c.Authorization).1
  unfold streamCreate
  simp only [h]
  cases e with
  | some e => exact ⟨_, rfl, rfl, Or.inr ⟨rfl, by simp [message], by simp [Call.acts]⟩⟩
  | none => exact ⟨_, rfl, rfl, Or.inl ⟨n, ev, rfl⟩⟩

/-- C6 (as stated, refuted): `POST /pili/v1/user/new` with no `Authorization`
header, for which `authorization` fails, creates the room and inserts the
account and answers 200; and `POST /pili/v1/room/new` with the token of
`alice` creates a room owned by `bob`. -/
theorem userNew_without_authorization :
    authorization (cli.collaborators.QueryUser aliceWorld) []
      = some ⟨[], some (.errorsNew (str "authorization is null")), []⟩ ∧
    (userNew cli.collaborators ⟨[], [], some ⟨str "bob", str "x", str "room2", 0⟩⟩
        aliceWorld).response.code = 200 ∧
    (userNew cli.collaborators ⟨[], [], some ⟨str "bob", str "x", str "room2", 0⟩⟩
        aliceWorld).calls
      = [.RoomCreate (str "room2") (str "bob") 99,
         .InsertUser ⟨str "bob", str "x", str "room2", 1700000000⟩] ∧
    (roomNew cli.collaborators
        ⟨str "YWxpY2U6c2VjcmV0MQ==", [], some ⟨str "room3", str "bob", 0⟩⟩ aliceWorld).map
        (fun r => (r.response.code, r.calls))
      = some (200, [.authorization (str "YWxpY2U6c2VjcmV0MQ=="),
          .RoomCreate (str "room3") (str "bob") 99]) := by
  decide

/-- C6 (amended): `POST user/update/:name`, `user/delete/:name` and
`room/delete/:id` first pass the `Authorization` token to `authorization`, and
unless it succeeds with a principal equal to the owner (the `:name`
parameter, or the owner `cli.RoomStatus` reports for the room) they answer
with a rejection, leave the state as it was and make no acting call;
`POST room/new`, `room/token` and `stream/:id` do the same unless
`authorization` succeeds; `POST user/new` never calls `authorization` and
its outcome does not depend on the `Authorization` header. -/
theorem handlers_gated {W : Type} (cli : Collaborators W) (w : W) :
    (∀ c : Context ReqUpdateUser, ∃ r, userUpdate cli c w = some r ∧
      r.calls.head? = some (.authorization c.Authorization) ∧
      ((∃ ev, authorization (cli.QueryUser w) c.Authorization = some ⟨c.Param, none, ev⟩) ∨
        r.rejected w)) ∧
    (∀ c : Context Unit, ∃ r, userDelete cli c w = some r ∧
      r.calls.head? = some (.authorization c.Authorization) ∧
      ((∃ ev, authorization (cli.QueryUser w) c.Authorization = some ⟨c.Param, none, ev⟩) ∨
        r.rejected w)) ∧
    (∀ c : Context Unit, ∃ r, roomDelete cli c w = some r ∧
      r.calls.head? = some (.authorization c.Authorization) ∧
      ((∃ ev st, cli.RoomStatus w c.Param = .ok st ∧
          authorization (cli.QueryUser w) c.Authorization
            = some ⟨st.OwnerUserID, none, ev⟩) ∨
        r.rejected w)) ∧
    (∀ c : Context ReqNewRoomBody, ∃ r, roomNew cli c w = some r ∧
      r.calls.head? = some (.authorization c.Authorization) ∧
      ((∃ author ev,
          authorization (cli.QueryUser w) c.Authorization = some ⟨author, none, ev⟩) ∨
        r.rejected w)) ∧
    (∀ c : Context ReqNewRoomTokenBody, ∃ r, roomToken cli c w = some r ∧
      r.calls.head? = some (.authorization c.Authorization) ∧
      ((∃ author ev,
          authorization (cli.QueryUser w) c.Authorization = some ⟨author, none, ev⟩) ∨
        r.rejected w)) ∧
    (∀ c : Context Unit, ∃ r, streamCreate cli c w = some r ∧
      r.calls.head? = some (.authorization c.Authorization) ∧
      ((∃ author ev,
          authorization (cli.QueryUser w) c.Authorization = some ⟨author, none, ev⟩) ∨
        r.rejected w)) ∧
    (∀ (c : Context Users) (token : GoString),
      (∀ t, Call.authorization t ∉ (userNew cli c w).calls) ∧
      userNew cli ⟨token, c.Param, c.BindJSON⟩ w = userNew cli c w) := by
  refine ⟨userUpdate_gated cli w, userDelete_gated cli w, roomDelete_gated cli w,
    roomNew_gated cli w, roomToken_gated cli w, streamCreate_gated cli w, ?_⟩
  intro c token
  refine ⟨?_, rfl⟩
  intro t
  unfold userNew
  cases c.BindJSON with
  | none => simp
  | some reqInfo =>
    simp only
    split_ifs
    · simp
    · simp
    · rcases cli.RoomCreate w reqInfo.Room reqInfo.Name 99 with ⟨_ | _, w1⟩
      · simp
      · simp only
        rcases cli.InsertUser w1 ⟨reqInfo.Name, reqInfo.Password, reqInfo.Room, cli.Now w⟩
          with ⟨_ | _, w2⟩ <;> simp

/-! ## User creation and its compensating delete -/

theorem fault_users_rooms (w : World) :
    w.fault.2.users = w.users ∧ w.fault.2.rooms = w.rooms := by
  unfold World.fault
  cases w.faults <;> simp

theorem RoomCreate_ok (w w1 : World) (room user : GoString) (max : Int) (ret : RoomRet)
    (h : cli.RoomCreate w room user max = (.ok ret, w1)) :
    w1.users = w.users ∧ w1.rooms = w.rooms ++ [⟨room, user, max⟩] ∧
      ∀ r ∈ w.rooms, r.Name ≠ room := by
  obtain ⟨hu, hr⟩ := fault_users_rooms w
  unfold cli.RoomCreate at h
  rcases hf : w.fault with ⟨_ | e, wf⟩
  · rw [hf] at h hu hr
    simp only at h hu hr
    by_cases hany : (wf.rooms.any fun r => r.Name == room) = true
    · rw [if_pos hany] at h
      simp at h
    · rw [if_neg hany] at h
      simp only [Prod.mk.injEq, Except.ok.injEq] at h
      obtain ⟨-, rfl⟩ := h
      refine ⟨hu, by simp [hr], ?_⟩
      intro r hmem heq
      apply hany
      rw [hr]
      exact List.any_eq_true.mpr ⟨r, hmem, by simp [heq]⟩
  · rw [hf] at h
    simp at h

theorem InsertUser_err (w w1 : World) (u : Users) (e : CliError)
    (h : cli.InsertUser w u = (some e, w1)) :
    w1.users = w.users ∧ w1.rooms = w.rooms := by
  have hfr := fault_users_rooms w
  unfold cli.InsertUser at h
  rcases hf : w.fault with ⟨_ | e', wf⟩
  · rw [hf] at h hfr
    simp only at h hfr
    split_ifs at h
    · simp only [Prod.mk.injEq] at h
      obtain ⟨-, rfl⟩ := h
      exact hfr
    · simp at h
  · rw [hf] at h hfr
    simp only [Prod.mk.injEq] at h hfr
    obtain ⟨-, rfl⟩ := h
    exact hfr

theorem RoomDelete_ok (w : World) (room : GoString) (h : (cli.RoomDelete w room).1 = none) :
    (cli.RoomDelete w room).2.users = w.users ∧
      (cli.RoomDelete w room).2.rooms = w.rooms.filter fun r => r.Name != room := by
  have hfr := fault_users_rooms w
  unfold cli.RoomDelete at h ⊢
  rcases hf : w.fault with ⟨_ | e', wf⟩
  · rw [hf] at hfr
    simp only at hfr ⊢
    simp [hfr.1, hfr.2]
  · rw [hf] at h
    simp at h

theorem filter_append_new (rooms : List Room) (room user : GoString) (max : Int)
    (h : ∀ r ∈ rooms, r.Name ≠ room) :
    (rooms ++ [(⟨room, user, max⟩ : Room)]).filter (fun r => r.Name != room) = rooms := by
  rw [List.filter_append]
  have h1 : rooms.filter (fun r => r.Name != room) = rooms :=
    List.filter_eq_self.mpr fun r hr => by simpa using h r hr
  rw [h1]
  simp

theorem userNew_room_fails {W : Type} (cli : Collaborators W) (w w1 : W) (c : Context Users)
    (reqInfo : Users) (e : CliError) (hb : c.BindJSON = some reqInfo)
    (hn : reqInfo.Name ≠ []) (hp : reqInfo.Password ≠ []) (hr : reqInfo.Room ≠ [])
    (h : cli.RoomCreate w reqInfo.Room reqInfo.Name 99 = (.error e, w1)) :
    userNew cli c w = ⟨message 611 (e.text ++ str "\n"), w1,
      [.RoomCreate reqInfo.Room reqInfo.Name 99]⟩ := by
  simp [userNew, hb, hn, hp, hr, h]

theorem userNew_insert_fails {W : Type} (cli : Collaborators W) (w w1 w2 : W)
    (c : Context Users) (reqInfo : Users) (ret : RoomRet) (iErr : CliError)
    (hb : c.BindJSON = some reqInfo)
    (hn : reqInfo.Name ≠ []) (hp : reqInfo.Password ≠ []) (hr : reqInfo.Room ≠ [])
    (h : cli.RoomCreate w reqInfo.Room reqInfo.Name 99 = (.ok ret, w1))
    (hi : cli.InsertUser w1 ⟨reqInfo.Name, reqInfo.Password, reqInfo.Room, cli.Now w⟩
      = (some iErr, w2)) :
    userNew cli c w = ⟨message 400 (iErr.text ++ str "\n"),
      (cli.RoomDelete w2 reqInfo.Room).2,
      [.RoomCreate reqInfo.Room reqInfo.Name 99,
       .InsertUser ⟨reqInfo.Name, reqInfo.Password, reqInfo.Room, cli.Now w⟩,
       .RoomDelete reqInfo.Room]⟩ := by
  simp [userNew, hb, hn, hp, hr, h, hi]

theorem userNew_both_succeed {W : Type} (cli : Collaborators W) (w w1 w2 : W)
    (c : Context Users) (reqInfo : Users) (ret : RoomRet)
    (hb : c.BindJSON = some reqInfo)
    (hn : reqInfo.Name ≠ []) (hp : reqInfo.Password ≠ []) (hr : reqInfo.Room ≠ [])
    (h : cli.RoomCreate w reqInfo.Room reqInfo.Name 99 = (.ok ret, w1))
    (hi : cli.InsertUser w1 ⟨reqInfo.Name, reqInfo.Password, reqInfo.Room, cli.Now w⟩
      = (none, w2)) :
    userNew cli c w = ⟨⟨200, .H [("code", .number 200), ("name", .text reqInfo.Name),
        ("room", .text reqInfo.Room)]⟩, w2,
      [.RoomCreate reqInfo.Room reqInfo.Name 99,
       .InsertUser ⟨reqInfo.Name, reqInfo.Password, reqInfo.Room, cli.Now w⟩]⟩ := by
  simp [userNew, hb, hn, hp, hr, h, hi]

theorem userNew_ok_iff {W : Type} (cli : Collaborators W) (w : W)
    (c : Context Users) (reqInfo : Users) (hb : c.BindJSON = some reqInfo)
    (hn : reqInfo.Name ≠ []) (hp : reqInfo.Password ≠ []) (hr : reqInfo.Room ≠ []) :
    (userNew cli c w).response.code = 200 ↔
      ∃ ret w1 w2, cli.RoomCreate w reqInfo.Room reqInfo.Name 99 = (.ok ret, w1) ∧
        cli.InsertUser w1 ⟨reqInfo.Name, reqInfo.Password, reqInfo.Room, cli.Now w⟩
          = (none, w2) := by
  rcases h : cli.RoomCreate w reqInfo.Room reqInfo.Name 99 with ⟨e | ret, w1⟩
  · rw [userNew_room_fails cli w w1 c reqInfo e hb hn hp hr h]
    constructor
    · intro hc
      simp [message] at hc
    · rintro ⟨ret', w1', w2', heq, -⟩
      simp at heq
  · rcases hi : cli.InsertUser w1 ⟨reqInfo.Name, reqInfo.Password, reqInfo.Room, cli.Now w⟩
      with ⟨_ | iErr, w2⟩
    · rw [userNew_both_succeed cli w w1 w2 c reqInfo ret hb hn hp hr h hi]
      exact ⟨fun _ => ⟨ret, w1, w2, rfl, hi⟩, fun _ => rfl⟩
    · rw [userNew_insert_fails cli w w1 w2 c reqInfo ret iErr hb hn hp hr h hi]
      constructor
      · intro hc
        simp [message] at hc
      · rintro ⟨ret', w1', w2', heq, hi'⟩
        simp only [Prod.mk.injEq, Except.ok.injEq] at heq
        obtain ⟨-, rfl⟩ := heq
        rw [hi] at hi'
        simp at hi'

theorem userNew_restores (w w1 w2 : World) (c : Context Users) (reqInfo : Users)
    (ret : RoomRet) (iErr : CliError) (hb : c.BindJSON = some reqInfo)
    (hn : reqInfo.Name ≠ []) (hp : reqInfo.Password ≠ []) (hr : reqInfo.Room ≠ [])
    (h : cli.RoomCreate w reqInfo.Room reqInfo.Name 99 = (.ok ret, w1))
    (hi : cli.InsertUser w1 ⟨reqInfo.Name, reqInfo.Password, reqInfo.Room, w.clock⟩
      = (some iErr, w2))
    (hd : (cli.RoomDelete w2 reqInfo.Room).1 = none) :
    (userNew cli.collaborators c w).world.users = w.users ∧
    (userNew cli.collaborators c w).world.rooms = w.rooms ∧
    (∀ r ∈ (userNew cli.collaborators c w).world.rooms, r.Name ≠ reqInfo.Room) ∧
    (cli.findByName w.users reqInfo.Name = none →
      cli.findByName (userNew cli.collaborators c w).world.users reqInfo.Name = none) := by
  rw [userNew_insert_fails cli.collaborators w w1 w2 c reqInfo ret iErr hb hn hp hr h hi]
  obtain ⟨hu1, hr1, hnew⟩ := RoomCreate_ok w w1 _ _ _ ret h
  obtain ⟨hu2, hr2⟩ := InsertUser_err w1 w2 _ iErr hi
  obtain ⟨hu3, hr3⟩ := RoomDelete_ok w2 reqInfo.Room hd
  have husers : (cli.collaborators.RoomDelete w2 reqInfo.Room).2.users = w.users := by
    show (cli.RoomDelete w2 reqInfo.Room).2.users = w.users
    rw [hu3, hu2, hu1]
  have hrooms : (cli.collaborators.RoomDelete w2 reqInfo.Room).2.rooms = w.rooms := by
    show (cli.RoomDelete w2 reqInfo.Room).2.rooms = w.rooms
    rw [hr3, hr2, hr1, filter_append_new _ _ _ _ hnew]
  simp only
  rw [husers, hrooms]
  exact ⟨rfl, rfl, hnew, fun h0 => h0⟩

/-- C9 (as stated, refuted): the store holds `alice`. A request to create
`alice` again with the new room `room2` creates the room, fails to insert,
deletes the room with success and answers 400; afterwards the account
`alice` exists. -/
theorem userNew_rejected_account_exists :
    userNew cli.collaborators ⟨[], [], some ⟨str "alice", str "x", str "room2", 0⟩⟩ aliceWorld
      = ⟨message 400 (str "already exists\n"), aliceWorld,
          [.RoomCreate (str "room2") (str "alice") 99,
           .InsertUser ⟨str "alice", str "x", str "room2", 1700000000⟩,
           .RoomDelete (str "room2")]⟩ ∧
    (cli.RoomDelete
        (cli.InsertUser (cli.RoomCreate aliceWorld (str "room2") (str "alice") 99).2
          ⟨str "alice", str "x", str "room2", 1700000000⟩).2 (str "room2")).1 = none ∧
    cli.findByName
        (userNew cli.collaborators ⟨[], [], some ⟨str "alice", str "x", str "room2", 0⟩⟩
          aliceWorld).world.users (str "alice")
      = some ⟨str "alice", str "secret1", str "room1", 0⟩ := by
  decide

/-- C9 (amended): in `POST /pili/v1/user/new` with non-empty name, password
and room: if room creation fails, the only call is `cli.RoomCreate` and a
rejection is returned; if it succeeds and the insert fails, `cli.RoomDelete`
is called on the same room and the rejection carries the insert error,
whatever the delete returns; only when both succeed is the answer 200 with
the name and the room. On the store and rooms modelled from the spec, after
a rejection whose compensating delete succeeded the accounts and the rooms
are those from before the request: the room does not exist, and no account
of that name exists unless one existed before. -/
theorem userNew_compensation {W : Type} (deps : Collaborators W) (w : W) (c : Context Users)
    (reqInfo : Users) (hb : c.BindJSON = some reqInfo)
    (hn : reqInfo.Name ≠ []) (hp : reqInfo.Password ≠ []) (hr : reqInfo.Room ≠ []) :
    (∀ e w1, deps.RoomCreate w reqInfo.Room reqInfo.Name 99 = (.error e, w1) →
      userNew deps c w = ⟨message 611 (e.text ++ str "\n"), w1,
        [.RoomCreate reqInfo.Room reqInfo.Name 99]⟩) ∧
    (∀ ret w1 iErr w2, deps.RoomCreate w reqInfo.Room reqInfo.Name 99 = (.ok ret, w1) →
      deps.InsertUser w1 ⟨reqInfo.Name, reqInfo.Password, reqInfo.Room, deps.Now w⟩
        = (some iErr, w2) →
      userNew deps c w = ⟨message 400 (iErr.text ++ str "\n"),
        (deps.RoomDelete w2 reqInfo.Room).2,
        [.RoomCreate reqInfo.Room reqInfo.Name 99,
         .InsertUser ⟨reqInfo.Name, reqInfo.Password, reqInfo.Room, deps.Now w⟩,
         .RoomDelete reqInfo.Room]⟩) ∧
    (∀ ret w1 w2, deps.RoomCreate w reqInfo.Room reqInfo.Name 99 = (.ok ret, w1) →
      deps.InsertUser w1 ⟨reqInfo.Name, reqInfo.Password, reqInfo.Room, deps.Now w⟩
        = (none, w2) →
      userNew deps c w = ⟨⟨200, .H [("code", .number 200), ("name", .text reqInfo.Name),
          ("room", .text reqInfo.Room)]⟩, w2,
        [.RoomCreate reqInfo.Room reqInfo.Name 99,
         .InsertUser ⟨reqInfo.Name, reqInfo.Password, reqInfo.Room, deps.Now w⟩]⟩) ∧
    ((userNew deps c w).response.code = 200 ↔
      ∃ ret w1 w2, deps.RoomCreate w reqInfo.Room reqInfo.Name 99 = (.ok ret, w1) ∧
        deps.InsertUser w1 ⟨reqInfo.Name, reqInfo.Password, reqInfo.Room, deps.Now w⟩
          = (none, w2)) ∧
    (∀ (sw sw1 sw2 : World) (ret : RoomRet) (iErr : CliError),
      cli.RoomCreate sw reqInfo.Room reqInfo.Name 99 = (.ok ret, sw1) →
      cli.InsertUser sw1 ⟨reqInfo.Name, reqInfo.Password, reqInfo.Room, sw.clock⟩
        = (some iErr, sw2) →
      (cli.RoomDelete sw2 reqInfo.Room).1 = none →
      (userNew cli.collaborators c sw).response.code ≠ 200 ∧
      (userNew cli.collaborators c sw).world.users = sw.users ∧
      (userNew cli.collaborators c sw).world.rooms = sw.rooms ∧
      (∀ r ∈ (userNew cli.collaborators c sw).world.rooms, r.Name ≠ reqInfo.Room) ∧
      (cli.findByName sw.users reqInfo.Name = none →
        cli.findByName (userNew cli.collaborators c sw).world.users reqInfo.Name = none)) := by
  refine ⟨fun e w1 h => userNew_room_fails deps w w1 c reqInfo e hb hn hp hr h,
    fun ret w1 iErr w2 h hi => userNew_insert_fails deps w w1 w2 c reqInfo ret iErr hb hn hp hr h hi,
    fun ret w1 w2 h hi => userNew_both_succeed deps w w1 w2 c reqInfo ret hb hn hp hr h hi,
    userNew_ok_iff deps w c reqInfo hb hn hp hr, ?_⟩
  intro sw sw1 sw2 ret iErr h hi hd
  refine ⟨?_, userNew_restores sw sw1 sw2 c reqInfo ret iErr hb hn hp hr h hi hd⟩
  rw [userNew_insert_fails cli.collaborators sw sw1 sw2 c reqInfo ret iErr hb hn hp hr h hi]
  simp [message]

/-- C9 (witness): creating `bob` with `room2` in a world where the insert
meets an upstream failure: the room is created and deleted again, the answer
is 400, and the accounts and rooms are as before. -/
theorem userNew_compensation_witness :
    (userNew cli.collaborators ⟨[], [], some ⟨str "bob", str "x", str "room2", 0⟩⟩
        { aliceWorld with faults := [none, some ⟨str "timeout"⟩] }).response.code ≠ 200 ∧
    (userNew cli.collaborators ⟨[], [], some ⟨str "bob", str "x", str "room2", 0⟩⟩
        { aliceWorld with faults := [none, some ⟨str "timeout"⟩] }).world.users
      = aliceWorld.users ∧
    (userNew cli.collaborators ⟨[], [], some ⟨str "bob", str "x", str "room2", 0⟩⟩
        { aliceWorld with faults := [none, some ⟨str "timeout"⟩] }).world.rooms
      = aliceWorld.rooms :=
  have h := (userNew_compensation cli.collaborators aliceWorld
    ⟨[], [], some ⟨str "bob", str "x", str "room2", 0⟩⟩ ⟨str "bob", str "x", str "room2", 0⟩
    rfl (by decide) (by decide) (by decide)).2.2.2.2
    { aliceWorld with faults := [none, some ⟨str "timeout"⟩] }
    { aliceWorld with faults := [some ⟨str "timeout"⟩],
                      rooms := aliceWorld.rooms ++ [⟨str "room2", str "bob", 99⟩] }
    { aliceWorld with faults := [],
                      rooms := aliceWorld.rooms ++ [⟨str "room2", str "bob", 99⟩] }
    ⟨str "room2"⟩ ⟨str "timeout"⟩ rfl rfl rfl
  ⟨h.1, h.2.1, h.2.2.1⟩

end PiliServer
